import Mathlib

/-!
Shallow embedding of the task-manager repository (storage façade in
`services/storageService.ts`, controller logic in `App.tsx`).

Conventions of the embedding:
* The persisted JSON blobs (`localStorage` under the three namespace keys)
  are modelled as already-parsed Lean lists; the corruption-recovery layer
  (`try/catch` + `Array.isArray` guards, which substitutes `[]`) sits outside
  the modelled state, so every operation receives the safe collection.
* Timestamps (ISO date strings run through `new Date(...).getTime()`) are
  modelled as `Int` epoch milliseconds; `Date` parsing is monotone and
  injective on valid inputs, so comparisons of parsed dates are comparisons
  of these integers.
* The artificial `delay(...)` calls and `console` logging are pure no-ops and
  are dropped; async functions become pure functions from the store to the
  new store (plus their return value).
* JavaScript's `Array.prototype.sort` is stable (ES2019); it is modelled by
  `List.mergeSort`, which is stable with the same comparator discipline.
-/

namespace TaskManager

/-- Embedding of `TaskStatus = 'pending' | 'done'` from `types.ts`. -/
inductive TaskStatus where
  | pending
  | done
deriving DecidableEq, Repr

/-- Notification kind `'upcoming' | 'overdue'`. -/
inductive NotifType where
  | upcoming
  | overdue
deriving DecidableEq, Repr

/-- The `Task` record: id, owning user id, title text, optional description,
deadline, status, optional completion time, creation time. -/
structure Task where
  id : String
  userId : String
  text : String
  description : Option String
  deadline : Int
  status : TaskStatus
  finishedTime : Option Int
  createdAt : Int
deriving DecidableEq, Repr

/-- The `Notification` record. -/
structure Notification where
  id : String
  userId : String
  taskId : String
  message : String
  type : NotifType
  isRead : Bool
  createdAt : Int
  emailSent : Bool
deriving DecidableEq, Repr

/-- A record of the users/credentials blob:
`{id, username, password, name, email, avatar, provider}` as built by
`register`. -/
structure StoredUser where
  id : String
  username : String
  password : String
  name : String
  email : String
  avatar : String
  provider : String
deriving DecidableEq, Repr

/-- The public `User` view (no password field). -/
structure User where
  id : String
  name : String
  email : String
  avatar : String
  provider : String
deriving DecidableEq, Repr

/-- The optional `credentials` argument of `login`:
`{username: string, password?: string}`. -/
structure Credentials where
  username : String
  password : Option String
deriving DecidableEq, Repr

/-- Embedding of `storageService.getTasks(userId)`: all stored tasks with
`t.userId === userId`. -/
def getTasks (userId : String) (store : List Task) : List Task :=
  store.filter (fun t => t.userId == userId)

/-- Embedding of `storageService.saveTask(task)`: upsert by id —
`findIndex(t => t.id === task.id)`; replace that slot if found, else `push`;
returns the task unchanged together with the new store. -/
def saveTask (task : Task) (store : List Task) : Task × List Task :=
  match store.findIdx? (fun t => t.id == task.id) with
  | some i => (task, store.set i task)
  | none => (task, store ++ [task])

/-- Embedding of `storageService.deleteTask(taskId)`: keep entries with a different id. -/
def deleteTask (taskId : String) (store : List Task) : List Task :=
  store.filter (fun t => t.id != taskId)

/-- Embedding of `storageService.deleteAllTasks(userId)`: keep only tasks of OTHER users. -/
def deleteAllTasks (userId : String) (store : List Task) : List Task :=
  store.filter (fun t => t.userId != userId)

/-- Comparator of `getNotifications`: `(a, b) => b.createdAt - a.createdAt`,
i.e. `a` may precede `b` when `b.createdAt ≤ a.createdAt` (descending). -/
def notifDescLe (a b : Notification) : Bool :=
  b.createdAt ≤ a.createdAt

/-- Embedding of `storageService.getNotifications(userId)`: the user's notifications,
sorted by creation time descending (stable sort). -/
def getNotifications (userId : String) (store : List Notification) : List Notification :=
  (store.filter (fun n => n.userId == userId)).mergeSort notifDescLe

/-- Embedding of `storageService.addNotification(n)`: append unless an entry with the same
(taskId, type, userId) triple already exists, in which case no-op. -/
def addNotification (notification : Notification) (store : List Notification) :
    List Notification :=
  if store.any (fun n =>
      n.taskId == notification.taskId && n.type == notification.type &&
      n.userId == notification.userId) then
    store
  else
    store ++ [notification]

/-- Embedding of `storageService.markNotificationRead(id)`: set `isRead` on the first
matching entry, if any. -/
def markNotificationRead (notificationId : String) (store : List Notification) :
    List Notification :=
  match store.findIdx? (fun n => n.id == notificationId) with
  | some i =>
    match store[i]? with
    | some n => store.set i { n with isRead := true }
    | none => store
  | none => store

/-- Embedding of `storageService.markAllNotificationsRead(userId)`. -/
def markAllNotificationsRead (userId : String) (store : List Notification) :
    List Notification :=
  store.map (fun n => if n.userId == userId then { n with isRead := true } else n)

/-- The duplicate-username failure message of `register`. -/
def duplicateUsernameMsg : String := "Tên đăng nhập đã tồn tại"

/-- The invalid-credentials failure message of `login`. -/
def invalidCredentialsMsg : String := "Tên đăng nhập hoặc mật khẩu không đúng"

/-- The avatar URL built by `register`. -/
def avatarUrl (username : String) : String :=
  "https://ui-avatars.com/api/?name=" ++ username ++
    "&background=random&color=fff&background=6366f1"

/-- Embedding of `storageService.register(username, password)`; `nowMs` stands for
`Date.now()` used in the generated id. Fails when any stored record already
has this username; otherwise appends the new credential record and returns
the public `User` view (no password). -/
def register (username password : String) (nowMs : Int) (users : List StoredUser) :
    Except String (User × List StoredUser) :=
  if users.any (fun u => u.username == username) then
    .error duplicateUsernameMsg
  else
    let newUser : StoredUser :=
      { id := "user_cred_" ++ toString nowMs
        username := username
        password := password
        name := username
        email := username ++ "@example.com"
        avatar := avatarUrl username
        provider := "credentials" }
    .ok ({ id := newUser.id, name := newUser.name, email := newUser.email,
           avatar := newUser.avatar, provider := "credentials" },
         users ++ [newUser])

/-- The predicate of `login`'s credentials lookup:
`u.username === credentials?.username && u.password === credentials?.password`
(optional chaining on an absent `credentials` yields `undefined`, which never
equals a stored string). -/
def credentialsMatch (credentials : Option Credentials) (u : StoredUser) : Bool :=
  some u.username == credentials.map (fun c => c.username) &&
  some u.password == credentials.bind (fun c => c.password)

/-- Embedding of `storageService.login(provider, credentials?)`: hard-coded identities for
`'google'` and `'github'`; every other provider takes the credentials path,
returning the first stored record matching username and password, or the
invalid-credentials failure. -/
def login (provider : String) (credentials : Option Credentials)
    (users : List StoredUser) : Except String User :=
  if provider == "google" then
    .ok { id := "user_google_123", name := "Alex Google", email := "alex@gmail.com",
          avatar := "https://picsum.photos/seed/google/200", provider := "google" }
  else if provider == "github" then
    .ok { id := "user_github_456", name := "Dev Github", email := "dev@github.com",
          avatar := "https://picsum.photos/seed/github/200", provider := "github" }
  else
    match users.find? (credentialsMatch credentials) with
    | none => .error invalidCredentialsMsg
    | some found =>
      .ok { id := found.id, name := found.name, email := found.email,
            avatar := found.avatar, provider := "credentials" }

/-- Exactly `24 * 60 * 60 * 1000` milliseconds, the `oneDay` constant of
`checkDeadlines`. -/
def oneDay : Int := 24 * 60 * 60 * 1000

/-- The classification step of `checkDeadlines` for one task: `done` tasks are
skipped; `diff = deadline - now`; `diff < 0` is overdue; else `diff < oneDay`
is upcoming; else no action. -/
def classifyTask (task : Task) (nowMs : Int) : Option NotifType :=
  if task.status = TaskStatus.done then
    none
  else
    let diff := task.deadline - nowMs
    if diff < 0 then some NotifType.overdue
    else if diff < oneDay then some NotifType.upcoming
    else none

/-- The message text synthesized by `checkDeadlines` for each kind. -/
def deadlineMessage (task : Task) (type : NotifType) : String :=
  match type with
  | NotifType.overdue => "Công việc \"" ++ task.text ++ "\" đã quá hạn!"
  | NotifType.upcoming => "Công việc \"" ++ task.text ++ "\" sắp đến hạn (dưới 24h)."

/-- The notification object built by `checkDeadlines`; `freshId` stands for
`crypto.randomUUID()`. -/
def mkDeadlineNotification (u : User) (task : Task) (type : NotifType)
    (freshId : String) (nowMs : Int) : Notification :=
  { id := freshId
    userId := u.id
    taskId := task.id
    message := deadlineMessage task type
    type := type
    isRead := false
    createdAt := nowMs
    emailSent := true }

/-- One iteration of the `for (const task of tasks)` loop of `checkDeadlines`.
State: (notification store, hasNewNotification flag). `notifications` is the
in-memory list, which the loop reads but never updates; the existence check is
`notifications.some(n => n.taskId === task.id && n.type === type)`. -/
def checkDeadlinesStep (u : User) (nowMs : Int) (notifications : List Notification)
    (ids : Task → NotifType → String) (st : List Notification × Bool) (task : Task) :
    List Notification × Bool :=
  match classifyTask task nowMs with
  | none => st
  | some type =>
    if notifications.any (fun n => n.taskId == task.id && n.type == type) then
      st
    else
      (addNotification (mkDeadlineNotification u task type (ids task type) nowMs) st.1,
       true)

/-- Embedding of `checkDeadlines` of `App.tsx`: scan the task list against the in-memory
notification list, persisting new notifications through `addNotification`.
Returns the final store and the `hasNewNotification` flag (when true the
caller reloads `getNotifications u.id` into memory). -/
def checkDeadlines (u : User) (tasks : List Task) (notifications : List Notification)
    (store : List Notification) (nowMs : Int) (ids : Task → NotifType → String) :
    List Notification × Bool :=
  tasks.foldl (checkDeadlinesStep u nowMs notifications ids) (store, false)

/-- Embedding of `FilterOption = 'all' | 'pending' | 'done'`. -/
inductive FilterOption where
  | all
  | pending
  | done
deriving DecidableEq, Repr

/-- Embedding of `SortOption = 'deadline-asc' | 'deadline-desc' | 'created-asc' |
'created-desc'`. -/
inductive SortOption where
  | deadlineAsc
  | deadlineDesc
  | createdAsc
  | createdDesc
deriving DecidableEq, Repr

/-- The search test of `filteredAndSortedTasks`:
`t.text.toLowerCase().includes(lower) ||
 (t.description && t.description.toLowerCase().includes(lower))`
with `lower = searchQuery.toLowerCase()`. -/
def matchesSearch (searchQuery : String) (t : Task) : Bool :=
  let lower := searchQuery.toLower
  t.text.toLower.containsSubstr lower.toSubstring ||
    (match t.description with
     | some d => d.toLower.containsSubstr lower.toSubstring
     | none => false)

/-- The status test of the `filter` stage (`'all'` keeps everything). -/
def matchesStatus (filter : FilterOption) (t : Task) : Bool :=
  match filter with
  | FilterOption.all => true
  | FilterOption.pending => t.status = TaskStatus.pending
  | FilterOption.done => t.status = TaskStatus.done

/-- The comparator of the sort stage, as a boolean "may precede" relation:
`sortLe s a b` iff the JS comparator returns `≤ 0` on `(a, b)`. -/
def sortLe (sortBy : SortOption) (a b : Task) : Bool :=
  match sortBy with
  | SortOption.deadlineAsc => a.deadline ≤ b.deadline
  | SortOption.deadlineDesc => b.deadline ≤ a.deadline
  | SortOption.createdAsc => a.createdAt ≤ b.createdAt
  | SortOption.createdDesc => b.createdAt ≤ a.createdAt

/-- The sort key: the JS comparator is `key a - key b` for this key. -/
def sortKey (sortBy : SortOption) (t : Task) : Int :=
  match sortBy with
  | SortOption.deadlineAsc => t.deadline
  | SortOption.deadlineDesc => -t.deadline
  | SortOption.createdAsc => t.createdAt
  | SortOption.createdDesc => -t.createdAt

/-- The search stage of `filteredAndSortedTasks`: `if (searchQuery)` — the
filter only runs for a non-empty query (the empty string is falsy). -/
def applySearch (searchQuery : String) (l : List Task) : List Task :=
  if searchQuery.isEmpty then l else l.filter (matchesSearch searchQuery)

/-- The status-filter stage of `filteredAndSortedTasks`. -/
def applyStatus (filter : FilterOption) (l : List Task) : List Task :=
  match filter with
  | FilterOption.pending => l.filter (fun t => t.status = TaskStatus.pending)
  | FilterOption.done => l.filter (fun t => t.status = TaskStatus.done)
  | FilterOption.all => l

/-- The `filteredAndSortedTasks` memo of `App.tsx`: copy the list,
search-filter when the query is non-empty, status-filter, stable sort. -/
def filteredAndSortedTasks (tasks : List Task) (searchQuery : String)
    (filter : FilterOption) (sortBy : SortOption) : List Task :=
  (applyStatus filter (applySearch searchQuery tasks)).mergeSort (sortLe sortBy)

/-! ### Sample data used by witnesses and counterexamples -/

/-- A sample pending task owned by `"u1"`. -/
def sampleTask : Task :=
  { id := "t1", userId := "u1", text := "mua sách", description := none,
    deadline := 1000, status := TaskStatus.pending, finishedTime := none,
    createdAt := 10 }

/-- The same id as `sampleTask` but owned by `"u2"`. -/
def sampleTaskOtherOwner : Task := { sampleTask with userId := "u2" }

/-- The same id and owner as `sampleTask` with edited text. -/
def sampleTaskEdited : Task := { sampleTask with text := "mua vở" }

/-! ### C1 / C2 / C9: the task upsert -/

/-- C1: `saveTask` returns its argument unchanged, and the task appears —
equal in all fields — in `getTasks` for its owner run on the updated store. -/
theorem saveTask_getTasks_roundTrip (t : Task) (store : List Task) :
    (saveTask t store).1 = t ∧ t ∈ getTasks t.userId (saveTask t store).2 := by
  unfold saveTask getTasks
  cases h : store.findIdx? (fun s => s.id == t.id) with
  | none =>
    refine ⟨rfl, ?_⟩
    simp [List.mem_filter]
  | some i =>
    have hi : i < store.length := by
      rcases List.findIdx?_eq_some_iff_getElem.mp h with ⟨hlt, -, -⟩
      exact hlt
    refine ⟨rfl, ?_⟩
    rw [List.mem_filter]
    exact ⟨List.mem_set store i hi t, by simp⟩

/-- C2: upsert behaviour of `saveTask`. If some stored task already has the
argument's id, the store keeps its length, contains the argument, and every
position holding a task with a different id is untouched; if no stored task
has that id, the argument is appended at the end. -/
theorem saveTask_upsert (t : Task) (store : List Task) :
    ((∃ t' ∈ store, t'.id = t.id) →
      (saveTask t store).2.length = store.length ∧
      t ∈ (saveTask t store).2 ∧
      (∀ (i : Nat) (x : Task), store[i]? = some x → x.id ≠ t.id → (saveTask t store).2[i]? = some x)) ∧
    ((∀ t' ∈ store, t'.id ≠ t.id) → (saveTask t store).2 = store ++ [t]) := by
  unfold saveTask
  cases h : store.findIdx? (fun s => s.id == t.id) with
  | none =>
    rw [List.findIdx?_eq_none_iff] at h
    constructor
    · rintro ⟨t', ht', hid⟩
      exact absurd (by simpa using h t' ht') (by simpa using hid)
    · intro _
      rfl
  | some i =>
    rcases List.findIdx?_eq_some_iff_getElem.mp h with ⟨hi, hpi, -⟩
    constructor
    · intro _
      refine ⟨by simp, List.mem_set store i hi t, ?_⟩
      intro j x hjx hne
      rcases List.getElem?_eq_some_iff.mp hjx with ⟨hj, hx⟩
      by_cases hij : i = j
      · subst hij
        rw [hx] at hpi
        exact absurd (by simpa using hpi) hne
      · rw [List.getElem?_set_ne hij]
        exact hjx
    · intro hall
      have := hall store[i] (List.getElem_mem hi)
      exact absurd (by simpa using hpi) this

/-- C2 witness: saving an edited task over a one-element store with the same
id keeps the length and contains the edit. -/
theorem saveTask_upsert_witness :
    (∃ t' ∈ [sampleTask], t'.id = sampleTaskEdited.id) ∧
    ((saveTask sampleTaskEdited [sampleTask]).2.length = [sampleTask].length ∧
     sampleTaskEdited ∈ (saveTask sampleTaskEdited [sampleTask]).2 ∧
     (∀ (i : Nat) (x : Task), [sampleTask][i]? = some x → x.id ≠ sampleTaskEdited.id →
       (saveTask sampleTaskEdited [sampleTask]).2[i]? = some x)) :=
  ⟨⟨sampleTask, by decide⟩,
   (saveTask_upsert sampleTaskEdited [sampleTask]).1 ⟨sampleTask, by decide⟩⟩

/-- C9 counterexample: `saveTask` performs no ownership check — saving a task
whose id matches a stored task but whose `userId` differs replaces the entry,
changing the stored owner (here from `"u1"` to `"u2"`). -/
theorem saveTask_changesOwner :
    sampleTaskOtherOwner.id = sampleTask.id ∧
    sampleTaskOtherOwner.userId ≠ sampleTask.userId ∧
    (saveTask sampleTaskOtherOwner [sampleTask]).2 = [sampleTaskOtherOwner] := by
  refine ⟨rfl, by decide, ?_⟩
  rfl

/-- C9 amended: provided the caller passes a task whose `userId` agrees with
every stored task of the same id (the application controller always saves
tasks carrying the current user's id), `saveTask` never changes the owner of
any stored entry: positionally, each entry keeps its id and its `userId`. -/
theorem saveTask_preservesOwner (t : Task) (store : List Task)
    (h : ∀ t' ∈ store, t'.id = t.id → t'.userId = t.userId) :
    ∀ (i : Nat) (x : Task), store[i]? = some x →
      ∃ y : Task, (saveTask t store).2[i]? = some y ∧ y.id = x.id ∧ y.userId = x.userId := by
  intro i x hix
  rcases List.getElem?_eq_some_iff.mp hix with ⟨hi, hx⟩
  unfold saveTask
  cases hf : store.findIdx? (fun s => s.id == t.id) with
  | none =>
    refine ⟨x, ?_, rfl, rfl⟩
    simpa [List.getElem?_append_left hi] using hix
  | some j =>
    rcases List.findIdx?_eq_some_iff_getElem.mp hf with ⟨hj, hpj, -⟩
    by_cases hij : j = i
    · subst hij
      rw [hx] at hpj
      have hid : x.id = t.id := by simpa using hpj
      have huid : x.userId = t.userId := h x (hx ▸ List.getElem_mem hi) hid
      exact ⟨t, by simp [List.getElem?_set_self hi], hid.symm, huid.symm⟩
    · exact ⟨x, by rw [List.getElem?_set_ne hij]; exact hix, rfl, rfl⟩

/-- C9 amended witness: re-saving an edited task with the same owner keeps the
stored entry's id and owner. -/
theorem saveTask_preservesOwner_witness :
    (∀ t' ∈ [sampleTask], t'.id = sampleTaskEdited.id → t'.userId = sampleTaskEdited.userId) ∧
    (∃ y : Task, (saveTask sampleTaskEdited [sampleTask]).2[0]? = some y ∧
      y.id = sampleTask.id ∧ y.userId = sampleTask.userId) :=
  ⟨by decide,
   saveTask_preservesOwner sampleTaskEdited [sampleTask] (by decide) 0 sampleTask rfl⟩

/-! ### C5: deadline classification -/

/-- C5: for every task and current time, the evaluator classifies `overdue`
exactly when the task is not done and its deadline is strictly before now,
classifies `upcoming` exactly when it is not done and its deadline is at or
after now but strictly less than 24 hours away, and takes no action otherwise
(in particular a `done` task is never classified). -/
theorem classifyTask_spec (t : Task) (nowMs : Int) :
    (classifyTask t nowMs = some NotifType.overdue ↔
      t.status ≠ TaskStatus.done ∧ t.deadline < nowMs) ∧
    (classifyTask t nowMs = some NotifType.upcoming ↔
      t.status ≠ TaskStatus.done ∧ nowMs ≤ t.deadline ∧ t.deadline < nowMs + oneDay) ∧
    (classifyTask t nowMs = none ↔
      t.status = TaskStatus.done ∨ nowMs + oneDay ≤ t.deadline) := by
  unfold classifyTask
  by_cases hd : t.status = TaskStatus.done
  · simp only [hd, if_pos rfl]
    refine ⟨by simp, by simp, by simp⟩
  · simp only [if_neg hd]
    split_ifs with h1 h2 <;>
      constructor <;> constructor <;> simp_all [oneDay] <;> omega

/-! ### C6: deleteAllTasks owner isolation -/

/-- C6: `deleteAllTasks u` removes every task owned by `u` and leaves every
task with a different owner unchanged: the result is a subsequence of the
store (same relative order), it contains no task of `u`, and every task value
with a different owner keeps its exact multiplicity. -/
theorem deleteAllTasks_ownerIsolation (u : String) (store : List Task) :
    (deleteAllTasks u store).Sublist store ∧
    ((deleteAllTasks u store).all (fun t => t.userId != u)) = true ∧
    (∀ t : Task, (deleteAllTasks u store).count t =
      if t.userId = u then 0 else store.count t) := by
  unfold deleteAllTasks
  refine ⟨List.filter_sublist _, ?_, ?_⟩
  · rw [List.all_eq_true]
    intro t ht
    exact (List.mem_filter.mp ht).2
  · intro t
    by_cases h : t.userId = u
    · rw [if_pos h, List.count_eq_zero]
      intro hmem
      have := List.of_mem_filter hmem
      simp [h] at this
    · rw [if_neg h]
      exact List.count_filter (by simp [h])

/-! ### C3: notification (userId, taskId, type) uniqueness -/

/-- Number of stored notifications carrying a given
(userId, taskId, type) triple. -/
def tripleCount (store : List Notification) (userId taskId : String)
    (type : NotifType) : Nat :=
  store.countP (fun n => n.userId == userId && n.taskId == taskId && n.type == type)

/-- At most one notification per (userId, taskId, type) triple. -/
def uniqueTriples (store : List Notification) : Prop :=
  ∀ (userId taskId : String) (type : NotifType), tripleCount store userId taskId type ≤ 1

/-- The duplicate test of `addNotification` succeeds exactly when the store
already holds the argument's triple. -/
theorem addNotification_exists_iff (n : Notification) (store : List Notification) :
    (store.any (fun m =>
      m.taskId == n.taskId && m.type == n.type && m.userId == n.userId)) = true ↔
    0 < tripleCount store n.userId n.taskId n.type := by
  rw [List.any_eq_true]
  unfold tripleCount
  rw [List.countP_pos_iff]
  constructor
  · rintro ⟨m, hm, hp⟩
    refine ⟨m, hm, ?_⟩
    simp only [Bool.and_eq_true, beq_iff_eq] at hp ⊢
    exact ⟨⟨hp.2, hp.1.1⟩, hp.1.2⟩
  · rintro ⟨m, hm, hp⟩
    refine ⟨m, hm, ?_⟩
    simp only [Bool.and_eq_true, beq_iff_eq] at hp ⊢
    exact ⟨⟨hp.1.2, hp.2⟩, hp.1.1⟩

/-- Effect of `addNotification` on a triple count: the argument's own triple
rises to at least one (unchanged if already present, else incremented from
zero); every other triple's count is untouched. -/
theorem tripleCount_addNotification (n : Notification) (store : List Notification)
    (u t : String) (ty : NotifType) :
    tripleCount (addNotification n store) u t ty =
      if n.userId = u ∧ n.taskId = t ∧ n.type = ty then
        max (tripleCount store u t ty) 1
      else
        tripleCount store u t ty := by
  unfold addNotification
  by_cases hex : (store.any (fun m =>
      m.taskId == n.taskId && m.type == n.type && m.userId == n.userId)) = true
  · rw [if_pos hex]
    split_ifs with htr
    · have h1 := (addNotification_exists_iff n store).mp hex
      rcases htr with ⟨h2, h3, h4⟩
      subst h2; subst h3; subst h4
      omega
    · rfl
  · rw [if_neg hex]
    unfold tripleCount
    rw [List.countP_append]
    split_ifs with htr
    · rcases htr with ⟨h2, h3, h4⟩
      subst h2; subst h3; subst h4
      have h0 : tripleCount store n.userId n.taskId n.type = 0 := by
        by_contra hne
        exact hex ((addNotification_exists_iff n store).mpr (by omega))
      unfold tripleCount at h0
      simp [h0]
    · have : (List.countP (fun m =>
          m.userId == u && m.taskId == t && m.type == ty) [n]) = 0 := by
        simp only [List.countP_cons, List.countP_nil]
        have : (n.userId == u && n.taskId == t && n.type == ty) = false := by
          simp only [Bool.and_eq_false_iff, beq_eq_false_iff_ne, ne_eq]
          by_cases e1 : n.userId = u
          · by_cases e2 : n.taskId = t
            · exact Or.inr (fun e3 => htr ⟨e1, e2, e3⟩)
            · exact Or.inl (Or.inr e2)
          · exact Or.inl (Or.inl e1)
        simp [this]
      simp [this]

/-- Adding a notification preserves the at-most-one-per-triple invariant. -/
theorem uniqueTriples_addNotification {store : List Notification}
    (n : Notification) (h : uniqueTriples store) :
    uniqueTriples (addNotification n store) := by
  intro u t ty
  rw [tripleCount_addNotification]
  split_ifs with htr
  · have := h u t ty
    omega
  · exact h u t ty

/-- C3: starting from a store with at most one notification per
(userId, taskId, type) triple, any sequence of `addNotification` calls keeps
that invariant; in particular two calls carrying the same triple leave exactly
one stored notification with that triple. -/
theorem addNotification_uniqueness (store : List Notification)
    (h : uniqueTriples store) :
    (∀ ns : List Notification,
      uniqueTriples (ns.foldl (fun s n => addNotification n s) store)) ∧
    (∀ n1 n2 : Notification, n1.userId = n2.userId → n1.taskId = n2.taskId →
      n1.type = n2.type →
      tripleCount (addNotification n2 (addNotification n1 store))
        n2.userId n2.taskId n2.type = 1) := by
  constructor
  · intro ns
    induction ns generalizing store with
    | nil => exact h
    | cons n ns ih =>
      exact ih (addNotification n store) (uniqueTriples_addNotification n h)
  · intro n1 n2 h1 h2 h3
    have hb := h n2.userId n2.taskId n2.type
    rw [tripleCount_addNotification, tripleCount_addNotification]
    rw [if_pos ⟨rfl, rfl, rfl⟩, if_pos ⟨h1, h2, h3⟩]
    omega

/-- A sample notification for the C3 witness. -/
def sampleNotification : Notification :=
  { id := "n1", userId := "u1", taskId := "t1", message := "m",
    type := NotifType.upcoming, isRead := false, createdAt := 5, emailSent := true }

/-- The same triple as `sampleNotification` under a different id. -/
def sampleNotificationDup : Notification :=
  { sampleNotification with id := "n2", createdAt := 6 }

/-- C3 witness: adding two notifications with an identical
(userId, taskId, type) triple to the empty store stores exactly one. -/
theorem addNotification_uniqueness_witness :
    uniqueTriples ([] : List Notification) ∧
    tripleCount (addNotification sampleNotificationDup
        (addNotification sampleNotification []))
      sampleNotificationDup.userId sampleNotificationDup.taskId
      sampleNotificationDup.type = 1 :=
  ⟨fun _ _ _ => by simp [tripleCount],
   (addNotification_uniqueness [] (fun _ _ _ => by simp [tripleCount])).2
     sampleNotification sampleNotificationDup rfl rfl rfl⟩

/-! ### C8 / C10: registration and login -/

/-- The credential record `register` stores for a given username, password and
`Date.now()` value. -/
def newCredRecord (username password : String) (nowMs : Int) : StoredUser :=
  { id := "user_cred_" ++ toString nowMs
    username := username
    password := password
    name := username
    email := username ++ "@example.com"
    avatar := avatarUrl username
    provider := "credentials" }

/-- The public view of a stored credential record (no password field). -/
def publicView (u : StoredUser) : User :=
  { id := u.id, name := u.name, email := u.email, avatar := u.avatar,
    provider := "credentials" }

/-- C8: `register` fails with the duplicate-username message exactly when a
stored record carries the same username, and otherwise returns the public
`User` view (a record type with no password field) while appending the full
credential record; `login` on the password path fails with the
invalid-credentials message exactly when no stored record matches both the
supplied username and password, and on success returns the public view of a
matching record. -/
theorem auth_scenario_spec (username password : String) (nowMs : Int)
    (users : List StoredUser) (un pw : String) :
    (register username password nowMs users = .error duplicateUsernameMsg ↔
      ∃ u ∈ users, u.username = username) ∧
    ((∀ u ∈ users, u.username ≠ username) →
      register username password nowMs users =
        .ok (publicView (newCredRecord username password nowMs),
             users ++ [newCredRecord username password nowMs])) ∧
    (login "credentials" (some ⟨un, some pw⟩) users = .error invalidCredentialsMsg ↔
      ∀ u ∈ users, ¬(u.username = un ∧ u.password = pw)) ∧
    (∀ ru : User, login "credentials" (some ⟨un, some pw⟩) users = .ok ru →
      ∃ u ∈ users, u.username = un ∧ u.password = pw ∧ ru = publicView u) := by
  have hany : (users.any (fun u => u.username == username)) = true ↔
      ∃ u ∈ users, u.username = username := by
    rw [List.any_eq_true]
    simp only [beq_iff_eq]
  refine ⟨?_, ?_, ?_, ?_⟩
  · unfold register
    by_cases hex : (users.any (fun u => u.username == username)) = true
    · rw [if_pos hex]
      simpa using hany.mp hex
    · rw [if_neg hex]
      simp only [reduceCtorEq, false_iff]
      intro hc
      exact hex (hany.mpr hc)
  · intro hnone
    unfold register
    rw [if_neg (fun hex => by
      rcases hany.mp hex with ⟨u, hu, he⟩
      exact hnone u hu he)]
    rfl
  · unfold login
    rw [show (("credentials" : String) == "google") = false from rfl,
        show (("credentials" : String) == "github") = false from rfl]
    simp only [Bool.false_eq_true, if_false]
    cases hf : users.find? (credentialsMatch (some ⟨un, some pw⟩)) with
    | none =>
      rw [List.find?_eq_none] at hf
      simp only [true_iff]
      intro u hu hup
      have := hf u hu
      apply this
      simp [credentialsMatch, hup.1, hup.2]
    | some found =>
      have hp := List.find?_some hf
      have hm := List.mem_of_find?_eq_some hf
      simp only [credentialsMatch] at hp
      simp only [Option.map_some', Option.some_bind, Bool.and_eq_true,
        beq_iff_eq, Option.some.injEq] at hp
      simp only [reduceCtorEq, false_iff, not_forall]
      exact ⟨found, hm, fun hall => hall ⟨hp.1, hp.2⟩⟩
  · intro ru hru
    unfold login at hru
    rw [show (("credentials" : String) == "google") = false from rfl,
        show (("credentials" : String) == "github") = false from rfl] at hru
    simp only [Bool.false_eq_true, if_false] at hru
    cases hf : users.find? (credentialsMatch (some ⟨un, some pw⟩)) with
    | none =>
      rw [hf] at hru
      exact absurd hru (by simp)
    | some found =>
      rw [hf] at hru
      have hp := List.find?_some hf
      have hm := List.mem_of_find?_eq_some hf
      simp only [credentialsMatch] at hp
      simp only [Option.map_some', Option.some_bind, Bool.and_eq_true,
        beq_iff_eq, Option.some.injEq] at hp
      refine ⟨found, hm, hp.1, hp.2, ?_⟩
      simpa [publicView] using hru.symm

/-- The credential record stored after registering `"alice"/"pw1"`. -/
def aliceRecord : StoredUser := newCredRecord "alice" "pw1" 17

/-- C8 witness: with `"alice"/"pw1"` registered, registering `"alice"` again
fails with the duplicate-username message, and logging in as
`"alice"/"wrong"` fails with the invalid-credentials message. -/
theorem auth_scenario_witness :
    register "alice" "pw2" 18 [aliceRecord] = .error duplicateUsernameMsg ∧
    login "credentials" (some ⟨"alice", some "wrong"⟩) [aliceRecord] =
      .error invalidCredentialsMsg :=
  ⟨(auth_scenario_spec "alice" "pw2" 18 [aliceRecord] "alice" "wrong").1.mpr
     ⟨aliceRecord, by decide, rfl⟩,
   (auth_scenario_spec "alice" "pw2" 18 [aliceRecord] "alice" "wrong").2.2.1.mpr
     (by decide)⟩

/-- C10: every provider other than `'google'` and `'github'` — not only
`'credentials'` — takes the password-credentials path of `login`, behaving
exactly like provider `'credentials'`; the only failure it can produce is the
invalid-credentials one (there is no unknown-provider failure). -/
theorem login_unknownProvider (provider : String) (credentials : Option Credentials)
    (users : List StoredUser) (h1 : provider ≠ "google") (h2 : provider ≠ "github") :
    login provider credentials users = login "credentials" credentials users ∧
    (∀ e : String, login provider credentials users = .error e →
      e = invalidCredentialsMsg) := by
  have hg : (provider == "google") = false := by simpa using h1
  have hh : (provider == "github") = false := by simpa using h2
  constructor
  · unfold login
    rw [hg, hh,
        show (("credentials" : String) == "google") = false from rfl,
        show (("credentials" : String) == "github") = false from rfl]
  · intro e he
    unfold login at he
    rw [hg, hh] at he
    simp only [Bool.false_eq_true, if_false] at he
    cases hf : users.find? (credentialsMatch credentials) with
    | none =>
      rw [hf] at he
      simpa [invalidCredentialsMsg] using (Except.error.inj he).symm
    | some found =>
      rw [hf] at he
      exact absurd he (by simp)

/-- C10 witness: provider `"facebook"` behaves like the credentials path. -/
theorem login_unknownProvider_witness :
    login "facebook" none [] = login "credentials" none [] ∧
    (∀ e : String, login "facebook" none [] = .error e →
      e = invalidCredentialsMsg) :=
  login_unknownProvider "facebook" none [] (by decide) (by decide)

/-! ### C4: idempotence of the deadline evaluator -/

/-- Membership in `getNotifications`: the sort is a permutation, so the result
holds exactly the store's entries owned by the given user. -/
theorem mem_getNotifications (n : Notification) (userId : String)
    (store : List Notification) :
    n ∈ getNotifications userId store ↔ n ∈ store ∧ n.userId = userId := by
  unfold getNotifications
  rw [List.mem_mergeSort, List.mem_filter]
  simp only [beq_iff_eq]

/-- The operation `addNotification` only ever appends, so the old store is a sublist. -/
theorem sublist_addNotification (n : Notification) (store : List Notification) :
    store.Sublist (addNotification n store) := by
  unfold addNotification
  split_ifs
  · exact List.Sublist.refl store
  · exact List.sublist_append_left store [n]

/-- After `addNotification n`, some stored entry carries `n`'s
(userId, taskId, type) triple (either a pre-existing duplicate or `n`). -/
theorem addNotification_mem_triple (n : Notification) (store : List Notification) :
    ∃ m ∈ addNotification n store,
      m.userId = n.userId ∧ m.taskId = n.taskId ∧ m.type = n.type := by
  unfold addNotification
  by_cases hex : (store.any (fun m =>
      m.taskId == n.taskId && m.type == n.type && m.userId == n.userId)) = true
  · rw [if_pos hex]
    rcases List.any_eq_true.mp hex with ⟨m, hm, hp⟩
    simp only [Bool.and_eq_true, beq_iff_eq] at hp
    exact ⟨m, hm, hp.2, hp.1.1, hp.1.2⟩
  · rw [if_neg hex]
    exact ⟨n, List.mem_append_right store (List.mem_singleton.mpr rfl), rfl, rfl, rfl⟩

/-- The store after a `checkDeadlines` loop iteration extends the store
before it. -/
theorem sublist_checkDeadlinesStep (u : User) (nowMs : Int)
    (notifications : List Notification) (ids : Task → NotifType → String)
    (st : List Notification × Bool) (task : Task) :
    st.1.Sublist (checkDeadlinesStep u nowMs notifications ids st task).1 := by
  unfold checkDeadlinesStep
  cases classifyTask task nowMs with
  | none => exact List.Sublist.refl _
  | some ty =>
    simp only
    split_ifs
    · exact List.Sublist.refl _
    · exact sublist_addNotification _ _

/-- The store after the whole `checkDeadlines` loop extends the initial
store. -/
theorem sublist_checkDeadlines_foldl (u : User) (nowMs : Int)
    (notifications : List Notification) (ids : Task → NotifType → String) :
    ∀ (tasks : List Task) (st : List Notification × Bool),
      st.1.Sublist
        (tasks.foldl (checkDeadlinesStep u nowMs notifications ids) st).1 := by
  intro tasks
  induction tasks with
  | nil => intro st; exact List.Sublist.refl _
  | cons t ts ih =>
    intro st
    rw [List.foldl_cons]
    exact (sublist_checkDeadlinesStep u nowMs notifications ids st t).trans
      (ih (checkDeadlinesStep u nowMs notifications ids st t))

/-- Predicate `covered u nowMs store t`: whenever the evaluator classifies `t`, the
store already holds a notification of the current user for `t` of that
kind. -/
def covered (u : User) (nowMs : Int) (store : List Notification) (t : Task) : Prop :=
  ∀ ty : NotifType, classifyTask t nowMs = some ty →
    ∃ n ∈ store, n.userId = u.id ∧ n.taskId = t.id ∧ n.type = ty

/-- Coverage is monotone under store extension. -/
theorem covered_mono {u : User} {nowMs : Int} {store store' : List Notification}
    {t : Task} (hs : store.Sublist store') (h : covered u nowMs store t) :
    covered u nowMs store' t := by
  intro ty hty
  rcases h ty hty with ⟨n, hn, h1, h2, h3⟩
  exact ⟨n, hs.subset hn, h1, h2, h3⟩

/-- After one run of the `checkDeadlines` loop, every scanned task is covered
in the resulting store, provided the in-memory list only holds entries that
are in the store and owned by the current user. -/
theorem checkDeadlines_foldl_covers (u : User) (nowMs : Int)
    (notifs : List Notification) (ids : Task → NotifType → String) :
    ∀ (tasks : List Task) (st : List Notification × Bool),
      (∀ n ∈ notifs, n ∈ st.1 ∧ n.userId = u.id) →
      ∀ t ∈ tasks,
        covered u nowMs
          (tasks.foldl (checkDeadlinesStep u nowMs notifs ids) st).1 t := by
  intro tasks
  induction tasks with
  | nil => intro st _ t ht; exact absurd ht (List.not_mem_nil t)
  | cons t0 ts ih =>
    intro st hcons t ht
    rw [List.foldl_cons]
    rcases List.mem_cons.mp ht with rfl | hts
    · -- the head task is covered right after its own step, and stays covered
      refine covered_mono
        (sublist_checkDeadlines_foldl u nowMs notifs ids ts _) ?_
      intro ty hty
      unfold checkDeadlinesStep
      rw [hty]
      simp only
      by_cases hex : (notifs.any (fun n => n.taskId == t.id && n.type == ty)) = true
      · rw [if_pos hex]
        rcases List.any_eq_true.mp hex with ⟨n, hn, hp⟩
        simp only [Bool.and_eq_true, beq_iff_eq] at hp
        rcases hcons n hn with ⟨hmem, huid⟩
        exact ⟨n, hmem, huid, hp.1, hp.2⟩
      · rw [if_neg hex]
        rcases addNotification_mem_triple
            (mkDeadlineNotification u t ty (ids t ty) nowMs) st.1 with
          ⟨m, hm, h1, h2, h3⟩
        exact ⟨m, hm, h1, h2, h3⟩
    · -- tasks further down the list: induction hypothesis on the new state
      refine ih (checkDeadlinesStep u nowMs notifs ids st t0) ?_ t hts
      intro n hn
      rcases hcons n hn with ⟨hmem, huid⟩
      exact ⟨(sublist_checkDeadlinesStep u nowMs notifs ids st t0).subset hmem, huid⟩

/-- When the in-memory list already witnesses every classification the scan
can produce, the `checkDeadlines` loop changes nothing. -/
theorem checkDeadlines_foldl_noop (u : User) (nowMs : Int)
    (notifs : List Notification) (ids : Task → NotifType → String) :
    ∀ (tasks : List Task) (st : List Notification × Bool),
      (∀ t ∈ tasks, ∀ ty : NotifType, classifyTask t nowMs = some ty →
        ∃ n ∈ notifs, n.taskId = t.id ∧ n.type = ty) →
      tasks.foldl (checkDeadlinesStep u nowMs notifs ids) st = st := by
  intro tasks
  induction tasks with
  | nil => intro st _; rfl
  | cons t0 ts ih =>
    intro st hall
    rw [List.foldl_cons]
    have hstep : checkDeadlinesStep u nowMs notifs ids st t0 = st := by
      unfold checkDeadlinesStep
      cases hty : classifyTask t0 nowMs with
      | none => rfl
      | some ty =>
        simp only
        rcases hall t0 (List.mem_cons_self t0 ts) ty hty with ⟨n, hn, h1, h2⟩
        rw [if_pos (List.any_eq_true.mpr ⟨n, hn, by simp [h1, h2]⟩)]
    rw [hstep]
    exact ih st (fun t ht => hall t (List.mem_cons_of_mem t0 ht))

/-- C4: with the task list unchanged, a second run of the deadline evaluator —
its in-memory notification list reloaded from the store produced by the first
run — adds nothing: it returns the first run's store untouched and reports no
new notification. The first run's in-memory list is assumed consistent with
its store (each entry present there and owned by the current user), which is
how the application loads it. -/
theorem checkDeadlines_idempotent (u : User) (tasks : List Task)
    (notifs₀ store₀ : List Notification) (nowMs : Int)
    (ids ids2 : Task → NotifType → String)
    (hcons : ∀ n ∈ notifs₀, n ∈ store₀ ∧ n.userId = u.id) :
    checkDeadlines u tasks
      (getNotifications u.id (checkDeadlines u tasks notifs₀ store₀ nowMs ids).1)
      (checkDeadlines u tasks notifs₀ store₀ nowMs ids).1 nowMs ids2 =
    ((checkDeadlines u tasks notifs₀ store₀ nowMs ids).1, false) := by
  have hcovers := checkDeadlines_foldl_covers u nowMs notifs₀ ids tasks
    (store₀, false) hcons
  unfold checkDeadlines
  apply checkDeadlines_foldl_noop
  intro t ht ty hty
  rcases hcovers t ht ty hty with ⟨n, hn, h1, h2, h3⟩
  refine ⟨n, ?_, h2, h3⟩
  rw [mem_getNotifications]
  exact ⟨hn, h1⟩

/-- The current user of the C4 witness. -/
def sampleUser : User :=
  { id := "u1", name := "An", email := "an@example.com", avatar := "a",
    provider := "credentials" }

/-- C4 witness: one pending task due in two hours, empty stores; the first run
creates an upcoming notification and the second run is a no-op. -/
theorem checkDeadlines_idempotent_witness :
    (∀ n ∈ ([] : List Notification), n ∈ ([] : List Notification) ∧
      n.userId = sampleUser.id) ∧
    checkDeadlines sampleUser [sampleTask]
      (getNotifications sampleUser.id
        (checkDeadlines sampleUser [sampleTask] [] [] 0 (fun _ _ => "n1")).1)
      (checkDeadlines sampleUser [sampleTask] [] [] 0 (fun _ _ => "n1")).1 0
      (fun _ _ => "n2") =
    ((checkDeadlines sampleUser [sampleTask] [] [] 0 (fun _ _ => "n1")).1, false) :=
  ⟨fun n hn => absurd hn (List.not_mem_nil n),
   checkDeadlines_idempotent sampleUser [sampleTask] [] [] 0
     (fun _ _ => "n1") (fun _ _ => "n2")
     (fun n hn => absurd hn (List.not_mem_nil n))⟩

/-! ### C7: the derived task view -/

/-- The sort comparator is total. -/
theorem sortLe_total (s : SortOption) (a b : Task) :
    (sortLe s a b || sortLe s b a) = true := by
  cases s <;> simp [sortLe] <;> omega

/-- The sort comparator is transitive. -/
theorem sortLe_trans (s : SortOption) (a b c : Task) :
    sortLe s a b → sortLe s b c → sortLe s a c := by
  cases s <;> simp [sortLe] <;> omega

/-- The comparator accepts a pair exactly when the sort keys are ordered. -/
theorem sortLe_iff_sortKey (s : SortOption) (a b : Task) :
    sortLe s a b = true ↔ sortKey s a ≤ sortKey s b := by
  cases s <;> simp only [sortLe, sortKey, decide_eq_true_eq] <;> omega

/-- Membership and the stage predicate for the search stage. -/
theorem mem_applySearch {q : String} {l : List Task} {t : Task}
    (h : t ∈ applySearch q l) :
    t ∈ l ∧ (q.isEmpty || matchesSearch q t) = true := by
  unfold applySearch at h
  by_cases he : q.isEmpty
  · rw [if_pos he] at h
    exact ⟨h, by simp [he]⟩
  · rw [if_neg he] at h
    rcases List.mem_filter.mp h with ⟨hm, hp⟩
    exact ⟨hm, by simp [hp]⟩

/-- Membership and the stage predicate for the status stage. -/
theorem mem_applyStatus {f : FilterOption} {l : List Task} {t : Task}
    (h : t ∈ applyStatus f l) :
    t ∈ l ∧ matchesStatus f t = true := by
  cases f with
  | all => exact ⟨h, rfl⟩
  | pending =>
    rcases List.mem_filter.mp h with ⟨hm, hp⟩
    exact ⟨hm, by simpa [matchesStatus] using hp⟩
  | done =>
    rcases List.mem_filter.mp h with ⟨hm, hp⟩
    exact ⟨hm, by simpa [matchesStatus] using hp⟩

/-- An ordered pair that survives a filter survives it as a pair. -/
theorem pair_sublist_filter {p : Task → Bool} {a b : Task} {l : List Task}
    (h : [a, b].Sublist l) (ha : p a = true) (hb : p b = true) :
    [a, b].Sublist (l.filter p) := by
  have h2 : List.filter p [a, b] = [a, b] := by simp [List.filter, ha, hb]
  have := List.Sublist.filter p h
  rwa [h2] at this

/-- Pairs surviving the search stage keep their order. -/
theorem pair_sublist_applySearch {q : String} {a b : Task} {l : List Task}
    (h : [a, b].Sublist l)
    (ha : (q.isEmpty || matchesSearch q a) = true)
    (hb : (q.isEmpty || matchesSearch q b) = true) :
    [a, b].Sublist (applySearch q l) := by
  unfold applySearch
  by_cases he : q.isEmpty
  · rwa [if_pos he]
  · rw [if_neg he]
    simp only [he, Bool.false_or] at ha hb
    exact pair_sublist_filter h ha hb

/-- Pairs surviving the status stage keep their order. -/
theorem pair_sublist_applyStatus {f : FilterOption} {a b : Task} {l : List Task}
    (h : [a, b].Sublist l)
    (ha : matchesStatus f a = true) (hb : matchesStatus f b = true) :
    [a, b].Sublist (applyStatus f l) := by
  cases f with
  | all => exact h
  | pending =>
    simp only [matchesStatus] at ha hb
    exact pair_sublist_filter h (by simpa using ha) (by simpa using hb)
  | done =>
    simp only [matchesStatus] at ha hb
    exact pair_sublist_filter h (by simpa using ha) (by simpa using hb)

/-- C7: the derived view is a subset of the input whose tasks all satisfy the
search predicate (trivially when the query is empty) and the status
predicate; the output is ordered by the sort key; and the sort is stable —
any two tasks that appear in order in the input, survive both filters, and
have equal sort keys appear in that same order in the output. (The
derivation is a pure function of its inputs: the source list is not
mutated.) -/
theorem filteredAndSortedTasks_spec (tasks : List Task) (q : String)
    (f : FilterOption) (s : SortOption) :
    (∀ t ∈ filteredAndSortedTasks tasks q f s,
      t ∈ tasks ∧ (q.isEmpty || matchesSearch q t) = true ∧
        matchesStatus f t = true) ∧
    (filteredAndSortedTasks tasks q f s).Pairwise
      (fun a b => sortKey s a ≤ sortKey s b) ∧
    (∀ a b : Task, [a, b].Sublist tasks →
      (q.isEmpty || matchesSearch q a) = true → matchesStatus f a = true →
      (q.isEmpty || matchesSearch q b) = true → matchesStatus f b = true →
      sortKey s a = sortKey s b →
      [a, b].Sublist (filteredAndSortedTasks tasks q f s)) := by
  refine ⟨?_, ?_, ?_⟩
  · intro t ht
    unfold filteredAndSortedTasks at ht
    rw [List.mem_mergeSort] at ht
    rcases mem_applyStatus ht with ⟨ht2, hstat⟩
    rcases mem_applySearch ht2 with ⟨ht3, hsearch⟩
    exact ⟨ht3, hsearch, hstat⟩
  · unfold filteredAndSortedTasks
    have := @List.sorted_mergeSort Task (sortLe s)
      (fun a b c => sortLe_trans s a b c) (fun a b => sortLe_total s a b)
      (applyStatus f (applySearch q tasks))
    exact List.Pairwise.imp (fun hab => (sortLe_iff_sortKey s _ _).mp hab) this
  · intro a b hab hsa hfa hsb hfb hkey
    unfold filteredAndSortedTasks
    refine List.pair_sublist_mergeSort
      (fun a b c => sortLe_trans s a b c) (fun a b => sortLe_total s a b)
      ((sortLe_iff_sortKey s a b).mpr (le_of_eq hkey)) ?_
    exact pair_sublist_applyStatus (pair_sublist_applySearch hab hsa hsb) hfa hfb

/-- A second sample task, same deadline as `sampleTask`, later creation. -/
def sampleTaskTied : Task :=
  { id := "t2", userId := "u1", text := "đi chợ", description := some "mua rau",
    deadline := 1000, status := TaskStatus.pending, finishedTime := none,
    createdAt := 20 }

/-- C7 witness: two pending tasks with tied deadlines keep their input order
in the deadline-ascending view with no search text and no status filter. -/
theorem filteredAndSortedTasks_spec_witness :
    ([sampleTask, sampleTaskTied].Sublist [sampleTask, sampleTaskTied] ∧
     ("".isEmpty || matchesSearch "" sampleTask) = true ∧
     matchesStatus FilterOption.all sampleTask = true ∧
     sortKey SortOption.deadlineAsc sampleTask =
       sortKey SortOption.deadlineAsc sampleTaskTied) ∧
    [sampleTask, sampleTaskTied].Sublist
      (filteredAndSortedTasks [sampleTask, sampleTaskTied] ""
        FilterOption.all SortOption.deadlineAsc) :=
  ⟨⟨List.Sublist.refl _, by decide, by decide, by decide⟩,
   (filteredAndSortedTasks_spec [sampleTask, sampleTaskTied] ""
       FilterOption.all SortOption.deadlineAsc).2.2 sampleTask sampleTaskTied
     (List.Sublist.refl _) (by decide) (by decide) (by decide) (by decide)
     (by decide)⟩

end TaskManager
